import Mathlib

/-!
Shallow embedding of `logdecorator` (src/logdecorator/decorator.py and
src/logdecorator/asyncio.py): the argument binder
(`LoggingDecorator.build_extensive_kwargs`), the message builder
(`LoggingDecorator.build_msg`), and the four policy wrappers
(`log_on_start`, `log_on_end`, `log_on_error`, `log_exception`) together
with their asynchronous counterparts.

Python values appearing in the data flow of the library are modelled by the
inductive `Val`; Python dicts by association lists with first-match
lookup (`alookup`), in-place update of a single key (`aset`, modelling
`d[k] = v`), and `dict.update` (`aupdate`).  A decorated call is
modelled as a function from the configuration of the wrapper, the wrapped
callable and the call arguments to the list of observable events (log
emissions and the invocation of the wrapped callable, in order) and the
final outcome (normal return, propagating exception, or propagating
formatting error).
-/

namespace LogDec

/-- A Python exception instance: its type name, whether the type derives
from `Exception` (as opposed to only `BaseException`, e.g.
`KeyboardInterrupt`), and its message. -/
structure Exc where
  ty : String
  isException : Bool
  msg : String
deriving DecidableEq, Repr

/-- Python values flowing through the library: integers, strings, `None`,
the `inspect.Parameter.empty` sentinel (the `default` of a parameter
declared without a default), exception instances and callables
(identified by their name). -/
inductive Val where
  | vint : Int → Val
  | vstr : String → Val
  | vnone : Val
  | vempty : Val
  | vexc : Exc → Val
  | vfn : String → Val
deriving DecidableEq, Repr

/-- An association list modelling a Python `dict` from names to values. -/
abbrev AList := List (String × Val)

/-- Python `dict` lookup (`d[n]` / `d.get(n)`); keys are unique in real
dicts, so first-match lookup is the dict semantics. -/
def alookup : AList → String → Option Val
  | [], _ => none
  | (k, v) :: rest, n => if k = n then some v else alookup rest n

/-- Python `d[k] = v`: replace the value at an existing key (keeping its
position, as dicts do), otherwise append the new entry. -/
def aset : AList → String → Val → AList
  | [], k, v => [(k, v)]
  | (k0, v0) :: rest, k, v =>
      if k0 = k then (k0, v) :: rest else (k0, v0) :: aset rest k v

/-- Python `d.update(e)`: set every entry of `e` in `d`, in order. -/
def aupdate (d e : AList) : AList :=
  e.foldl (fun acc kv => aset acc kv.1 kv.2) d

/-- The single-quote character, used by the Python `repr` renderings. -/
def sq : String := String.singleton (Char.ofNat 39)

/-- Python `str(v)` for the modelled values.  The textual renderings of
the callable object and of the `inspect.Parameter.empty` sentinel are
abstracted; the claims depend only on which value is rendered, not on
the exact spelling. -/
def pyStr : Val → String
  | Val.vint n => toString n
  | Val.vstr s => s
  | Val.vnone => "None"
  | Val.vempty => "<inspect.Parameter.empty>"
  | Val.vexc e => e.msg
  | Val.vfn n => "<function " ++ n ++ ">"

/-- Python `repr(v)` for the modelled values. -/
def pyRepr : Val → String
  | Val.vint n => toString n
  | Val.vstr s => sq ++ s ++ sq
  | Val.vnone => "None"
  | Val.vempty => "<inspect.Parameter.empty>"
  | Val.vexc e => e.ty ++ "(" ++ sq ++ e.msg ++ sq ++ ")"
  | Val.vfn n => "<function " ++ n ++ ">"

/-- One piece of a message template: literal text, or a replacement field
`\x7bname!conversion:spec\x7d` with its optional conversion character and
format specifier.  `str.format` parses the template at format time; the
model keeps the template in parsed form in the configuration. -/
inductive FmtPart where
  | lit : String → FmtPart
  | field : String → Option Char → Option String → FmtPart
deriving DecidableEq, Repr

/-- Applying a format specifier to a (possibly converted) value, as
`str.format` does: the empty specifier renders with `str`, `d` requires
an integer, `s` requires a string; any other specifier is modelled as a
formatting failure. -/
def applySpec (sp : String) (v : Val) : Option String :=
  if sp = "" then some (pyStr v)
  else if sp = "d" then
    match v with
    | Val.vint n => some (toString n)
    | _ => none
  else if sp = "s" then
    match v with
    | Val.vstr s => some s
    | _ => none
  else none

/-- Rendering one replacement field: the conversion (`!r` or `!s`) is
applied first, then the format specifier. -/
def formatField (v : Val) (conv : Option Char) (spec : Option String) : Option String :=
  let cv : Option Val :=
    match conv with
    | none => some v
    | some c =>
        if c = 'r' then some (Val.vstr (pyRepr v))
        else if c = 's' then some (Val.vstr (pyStr v))
        else none
  match cv with
  | none => none
  | some w =>
      match spec with
      | none => applySpec "" w
      | some sp => applySpec sp w

/-- Model of `template.format(**m)`: substitute every replacement field from the
mapping.  `none` models the exception Python raises (`KeyError` for a
name absent from the mapping, `ValueError`/`TypeError` for an
incompatible specifier) — the `FormatError` of the specification. -/
def formatParts : List FmtPart → AList → Option String
  | [], _ => some ""
  | FmtPart.lit s :: rest, m =>
      (formatParts rest m).map (fun r => s ++ r)
  | FmtPart.field n conv sp :: rest, m =>
      match alookup m n with
      | none => none
      | some v =>
          match formatField v conv sp with
          | none => none
          | some s => (formatParts rest m).map (fun r => s ++ r)

/-- One declared parameter of a signature: its name and its
default (`Val.vempty` models `inspect.Parameter.empty`, the default of a
parameter declared without one). -/
structure Param where
  name : String
  default : Val
deriving DecidableEq, Repr

/-- The declared signature of a callable, in declaration order. -/
abbrev Sig := List Param

/-- The outcome of invoking the wrapped callable itself. -/
inductive CallResult where
  | ok : Val → CallResult
  | exc : Exc → CallResult
deriving DecidableEq, Repr

/-- The wrapped callable: the `__name__`, the declared signature, and the
behaviour as a function of the positional and keyword arguments of the call. -/
structure Fn where
  name : String
  sig : Sig
  body : List Val → AList → CallResult

/-- Model of `inspect.signature(fn).bind_partial(*args, **kwargs).arguments`:
positional arguments are matched to the declared parameters in order and
keyword arguments by name.  Only bindable calls are modelled (no excess
positional arguments, no duplicate supply), which is what every claim
assumes. -/
def bindArgs (sig : Sig) (args : List Val) (kwargs : AList) : AList :=
  ((sig.zip args).map (fun pv => (pv.1.name, pv.2))) ++ kwargs

/-- Model of `LoggingDecorator.build_extensive_kwargs`: one entry per declared
parameter, taking the bound value when the caller supplied one and the
declared `default` otherwise (which is the `inspect.Parameter.empty`
sentinel for a parameter declared without a default). -/
def build_extensive_kwargs (sig : Sig) (args : List Val) (kwargs : AList) : AList :=
  sig.map (fun p => (p.name, (alookup (bindArgs sig args kwargs) p.name).getD p.default))

/-- Configuration shared by every decorator (`LoggingDecorator.__init__`):
level, parsed message template, and the name under which the callable is
exposed to the template. -/
structure Config where
  log_level : Nat
  message : List FmtPart
  callable_format_variable : String

/-- Configuration of `log_on_end.__init__`: it adds the name under which the result is
exposed. -/
structure EndConfig extends Config where
  result_format_variable : String

/-- Configuration of `log_on_error.__init__`: it adds the exception filter (a list of
exception type names — `except` matching is abstracted to membership of
the type of the raised exception), the reraise flag and the name under which
the exception is exposed. -/
structure ErrorConfig extends Config where
  on_exceptions : List String
  reraise : Bool
  exception_format_variable : String

/-- Model of `self.on_exceptions = on_exceptions or ()`: an absent (`None`) or
empty filter becomes the empty tuple, which matches no exception. -/
def orEmptyFilter : Option (List String) → List String
  | none => []
  | some l => l

/-- Model of `log_on_error.__init__` on the arguments the claims exercise. -/
def log_on_error_mk (log_level : Nat) (message : List FmtPart)
    (callable_format_variable : String) (on_exceptions : Option (List String))
    (reraise : Bool) (exception_format_variable : String) : ErrorConfig :=
  { log_level := log_level, message := message,
    callable_format_variable := callable_format_variable,
    on_exceptions := orEmptyFilter on_exceptions,
    reraise := reraise,
    exception_format_variable := exception_format_variable }

/-- Model of `except self.on_exceptions` for a raised exception, abstracted to
membership of the type of the exception in the configured filter (the
claims quantify over the type being in or out of the filter). -/
def excMatches (filter : List String) (e : Exc) : Bool :=
  filter.contains e.ty

/-- Warnings emitted while constructing any of the decorators
(`LoggingDecorator.__init__`): the only warning in the library is the
mixed use of `handler` and `logger`. -/
def initWarnings (loggerGiven handlerGiven : Bool) : List String :=
  if handlerGiven && loggerGiven then
    ["Detected mixed use of handler and logger argument. The handler argument is ignored."]
  else []

/-- The combined formatting mapping built by `LoggingDecorator.build_msg`
before the template is rendered: `extra[self.callable_format_variable] = fn`
followed by `format_kwargs.update(extra)`. -/
def msgKwargs (cfg : Config) (fn : Fn) (args : List Val) (kwargs : AList)
    (extra : AList) : AList :=
  aupdate (build_extensive_kwargs fn.sig args kwargs)
    (aset extra cfg.callable_format_variable (Val.vfn fn.name))

/-- Model of `LoggingDecorator.build_msg`: render the template over the combined
mapping; `none` is the propagating formatting failure. -/
def build_msg (cfg : Config) (fn : Fn) (args : List Val) (kwargs : AList)
    (extra : AList) : Option String :=
  formatParts cfg.message (msgKwargs cfg fn args kwargs extra)

/-- Observable events of one decorated call, in order: a log emission
(level, rendered message, and whether it went through the
`logger.exception` path, which attaches a stack trace) or the invocation
of the wrapped callable. -/
inductive Event where
  | log : Nat → String → Bool → Event
  | call : Event
deriving DecidableEq, Repr

/-- The final outcome of one decorated call: a normal return (Python
`None` is `Val.vnone`), a propagating exception, or a propagating
formatting failure. -/
inductive Outcome where
  | ret : Val → Outcome
  | raised : Exc → Outcome
  | fmtError : Outcome
deriving DecidableEq, Repr

/-- Model of `LoggingDecorator.log`: a plain `logger.log(log_level, msg)`. -/
def plainLog (lvl : Nat) (m : String) : Event := Event.log lvl m false

/-- Numeric value of `logging.ERROR`. -/
def logging_ERROR : Nat := 40

/-- Model of `log_exception.log`: `logger.exception(msg)` ignores the level it was
handed and emits at ERROR through the stack-trace-attaching path. -/
def log_exception_log (_log_level : Nat) (msg : String) : Event :=
  Event.log logging_ERROR msg true

/-- Model of `log_on_start.execute`: `_do_logging` (build the message and emit it)
and only then delegate to the wrapped callable.  A formatting failure
propagates before the callable is invoked. -/
def log_on_start_execute (cfg : Config) (fn : Fn) (args : List Val)
    (kwargs : AList) : List Event × Outcome :=
  match build_msg cfg fn args kwargs [] with
  | none => ([], Outcome.fmtError)
  | some m =>
      match fn.body args kwargs with
      | CallResult.ok v =>
          ([Event.log cfg.log_level m false, Event.call], Outcome.ret v)
      | CallResult.exc e =>
          ([Event.log cfg.log_level m false, Event.call], Outcome.raised e)

/-- Model of `log_on_end.execute`: delegate to the wrapped callable first; only on
a normal return build the message (with the result injected under
`result_format_variable`) and emit it.  An exception from the callable
propagates with no log. -/
def log_on_end_execute (cfg : EndConfig) (fn : Fn) (args : List Val)
    (kwargs : AList) : List Event × Outcome :=
  match fn.body args kwargs with
  | CallResult.exc e => ([Event.call], Outcome.raised e)
  | CallResult.ok v =>
      match build_msg cfg.toConfig fn args kwargs
          (aset [] cfg.result_format_variable v) with
      | none => ([Event.call], Outcome.fmtError)
      | some m =>
          ([Event.call, Event.log cfg.log_level m false], Outcome.ret v)

/-- Model of `log_on_error.on_error` after the wrapped callable raised `e` and the
outer handler caught it: re-raise `e` against the filter; on a match,
log (with `e` injected under `exception_format_variable`) and then
re-raise the original instance when `reraise` is set, otherwise fall
through so that `execute` returns `None`; on no match the re-raised `e`
propagates unlogged.  `logEv` is the `log` method used
(`LoggingDecorator.log` or the `log_exception` override). -/
def on_error_result (logEv : Nat → String → Event) (cfg : ErrorConfig)
    (fn : Fn) (args : List Val) (kwargs : AList) (e : Exc) :
    List Event × Outcome :=
  if excMatches cfg.on_exceptions e then
    match build_msg cfg.toConfig fn args kwargs
        (aset [] cfg.exception_format_variable (Val.vexc e)) with
    | none => ([Event.call], Outcome.fmtError)
    | some m =>
        if cfg.reraise then
          ([Event.call, logEv cfg.log_level m], Outcome.raised e)
        else
          ([Event.call, logEv cfg.log_level m], Outcome.ret Val.vnone)
  else ([Event.call], Outcome.raised e)

/-- Model of `log_on_error.execute`: the wrapped call runs under
`except BaseException`, so every exception reaches `on_error`. -/
def log_on_error_execute (cfg : ErrorConfig) (fn : Fn) (args : List Val)
    (kwargs : AList) : List Event × Outcome :=
  match fn.body args kwargs with
  | CallResult.ok v => ([Event.call], Outcome.ret v)
  | CallResult.exc e => on_error_result plainLog cfg fn args kwargs e

/-- Model of `log_exception.__init__`: no level parameter exists; the level is
forced to `logging.ERROR` and everything else is passed through to
`log_on_error.__init__`. -/
def log_exception_mk (message : List FmtPart)
    (callable_format_variable : String) (on_exceptions : Option (List String))
    (reraise : Bool) (exception_format_variable : String) : ErrorConfig :=
  log_on_error_mk logging_ERROR message callable_format_variable
    on_exceptions reraise exception_format_variable

/-- Model of the decorated call of `log_exception`: `log_on_error.execute` with the
overridden `log` method (`logger.exception`). -/
def log_exception_execute (cfg : ErrorConfig) (fn : Fn) (args : List Val)
    (kwargs : AList) : List Event × Outcome :=
  match fn.body args kwargs with
  | CallResult.ok v => ([Event.call], Outcome.ret v)
  | CallResult.exc e => on_error_result log_exception_log cfg fn args kwargs e

/-- Model of `async_log_on_start.execute`: `_do_logging` then `await` the wrapped
callable — the same control flow as the synchronous wrapper, with the
delegation being a suspension point. -/
def async_log_on_start_execute (cfg : Config) (fn : Fn) (args : List Val)
    (kwargs : AList) : List Event × Outcome :=
  match build_msg cfg fn args kwargs [] with
  | none => ([], Outcome.fmtError)
  | some m =>
      match fn.body args kwargs with
      | CallResult.ok v =>
          ([Event.log cfg.log_level m false, Event.call], Outcome.ret v)
      | CallResult.exc e =>
          ([Event.log cfg.log_level m false, Event.call], Outcome.raised e)

/-- Model of `async_log_on_end.execute`: `await` the wrapped callable, then
`_do_logging` with the result — the same control flow as the synchronous
wrapper. -/
def async_log_on_end_execute (cfg : EndConfig) (fn : Fn) (args : List Val)
    (kwargs : AList) : List Event × Outcome :=
  match fn.body args kwargs with
  | CallResult.exc e => ([Event.call], Outcome.raised e)
  | CallResult.ok v =>
      match build_msg cfg.toConfig fn args kwargs
          (aset [] cfg.result_format_variable v) with
      | none => ([Event.call], Outcome.fmtError)
      | some m =>
          ([Event.call, Event.log cfg.log_level m false], Outcome.ret v)

/-- Model of `async_log_on_error.execute`: unlike the synchronous wrapper, the
awaited call runs under `except Exception`, so an exception deriving
from `BaseException` but not from `Exception` never reaches `on_error`
and propagates unlogged regardless of the filter. -/
def async_log_on_error_execute (cfg : ErrorConfig) (fn : Fn)
    (args : List Val) (kwargs : AList) : List Event × Outcome :=
  match fn.body args kwargs with
  | CallResult.ok v => ([Event.call], Outcome.ret v)
  | CallResult.exc e =>
      if e.isException then on_error_result plainLog cfg fn args kwargs e
      else ([Event.call], Outcome.raised e)

/-- Model of `async_log_exception.execute`: `async_log_on_error.execute` with the
`log_exception` log override. -/
def async_log_exception_execute (cfg : ErrorConfig) (fn : Fn)
    (args : List Val) (kwargs : AList) : List Event × Outcome :=
  match fn.body args kwargs with
  | CallResult.ok v => ([Event.call], Outcome.ret v)
  | CallResult.exc e =>
      if e.isException then on_error_result log_exception_log cfg fn args kwargs e
      else ([Event.call], Outcome.raised e)

/-- Concrete exception instance of type `TypeError`. -/
def typeErrorExc : Exc := ⟨"TypeError", true, "unsupported operand"⟩

/-- Concrete exception instance of type `ValueError`. -/
def valueErrorExc : Exc := ⟨"ValueError", true, "bad"⟩

/-- Concrete `KeyboardInterrupt` instance: a `BaseException` that does not
derive from `Exception`. -/
def kbExc : Exc := ⟨"KeyboardInterrupt", false, "interrupt"⟩

/-- Signature of the test callable
`test_func(arg1, arg2, kwarg1=None, kwarg2=None)` of the test suite. -/
def addSig : Sig :=
  [⟨"arg1", Val.vempty⟩, ⟨"arg2", Val.vempty⟩,
   ⟨"kwarg1", Val.vnone⟩, ⟨"kwarg2", Val.vnone⟩]

/-- Model of the test callable `test_func`: returns `arg1 + arg2` on two
integer arguments and raises `TypeError` otherwise. -/
def addFn : Fn :=
  { name := "test_func", sig := addSig,
    body := fun args _ =>
      match args with
      | [Val.vint a, Val.vint b] => CallResult.ok (Val.vint (a + b))
      | _ => CallResult.exc typeErrorExc }

/-- A wrapped callable with no parameters that always raises
`ValueError("bad")`. -/
def raisingFn : Fn :=
  { name := "boom", sig := [], body := fun _ _ => CallResult.exc valueErrorExc }

/-- A wrapped callable that always raises `KeyboardInterrupt`. -/
def kbFn : Fn :=
  { name := "kb", sig := [], body := fun _ _ => CallResult.exc kbExc }

/-- Concrete on-start configuration with a literal template. -/
def cfgStart : Config := ⟨20, [FmtPart.lit "hello"], "callable"⟩

/-- Concrete on-start configuration whose template references a name that
is never in the mapping, so formatting always fails. -/
def cfgStartBad : Config := ⟨20, [FmtPart.field "missing" none none], "callable"⟩

/-- Concrete on-end configuration with a literal template. -/
def cfgEnd : EndConfig := ⟨⟨20, [FmtPart.lit "done"], "callable"⟩, "result"⟩

/-- Concrete on-error configuration: filter `ValueError`, reraise set. -/
def cfgErrReraise : ErrorConfig :=
  log_on_error_mk 20 [FmtPart.lit "err"] "callable" (some ["ValueError"]) true "e"

/-- Concrete on-error configuration: filter `ValueError`, reraise unset. -/
def cfgErrSwallow : ErrorConfig :=
  log_on_error_mk 20 [FmtPart.lit "err"] "callable" (some ["ValueError"]) false "e"

/-- Concrete on-error configuration whose filter contains
`KeyboardInterrupt` with reraise unset. -/
def cfgKb : ErrorConfig :=
  log_on_error_mk 20 [FmtPart.lit "boom"] "callable" (some ["KeyboardInterrupt"]) false "e"

/-- One-parameter signature whose parameter has no default. -/
def c6sig : Sig := [⟨"x", Val.vempty⟩]

/-- Concrete on-end configuration whose result format variable collides
with the callable format variable. -/
def cfgEndCollide : EndConfig :=
  ⟨⟨20, [FmtPart.field "callable" none none], "callable"⟩, "callable"⟩

/-- Concrete on-error configuration whose exception format variable
collides with the callable format variable. -/
def cfgErrCollide : ErrorConfig :=
  log_on_error_mk 20 [] "callable" (some ["ValueError"]) false "callable"

/-- Setting a key makes it present with the written value. -/
theorem alookup_aset_self (d : AList) (k : String) (v : Val) :
    alookup (aset d k v) k = some v := by
  induction d with
  | nil => simp [aset, alookup]
  | cons hd tl ih =>
      obtain ⟨k0, v0⟩ := hd
      by_cases h : k0 = k
      · subst h
        simp [aset, alookup]
      · simp [aset, alookup, h, ih]

/-- Setting one key leaves every other key unchanged. -/
theorem alookup_aset_ne (d : AList) (k n : String) (v : Val) (h : k ≠ n) :
    alookup (aset d k v) n = alookup d n := by
  induction d with
  | nil => simp [aset, alookup, h]
  | cons hd tl ih =>
      obtain ⟨k0, v0⟩ := hd
      by_cases h0 : k0 = k
      · subst h0
        simp [aset, alookup, h]
      · by_cases h1 : k0 = n
        · simp [aset, alookup, h0, h1, Ne.symm h]
        · simp [aset, alookup, h0, h1, ih]

/-- Updating with the empty dict is the identity. -/
theorem aupdate_nil (d : AList) : aupdate d [] = d := rfl

/-- Updating with a nonempty dict sets the head entry and recurses. -/
theorem aupdate_cons (d : AList) (k : String) (v : Val) (e : AList) :
    aupdate d ((k, v) :: e) = aupdate (aset d k v) e := rfl

/-- Updating with a singleton dict is a single set. -/
theorem aupdate_singleton (d : AList) (k : String) (v : Val) :
    aupdate d [(k, v)] = aset d k v := rfl

/-- A key not mentioned by the update keeps its old value. -/
theorem alookup_aupdate_not_mem (e : AList) (n : String) :
    ∀ d : AList, n ∉ e.map Prod.fst → alookup (aupdate d e) n = alookup d n := by
  induction e with
  | nil => intro d _; rfl
  | cons hd tl ih =>
      intro d h
      obtain ⟨k, v⟩ := hd
      rw [aupdate_cons]
      have hk : k ≠ n := by
        intro hkn
        exact h (by simp [hkn])
      have htl : n ∉ tl.map Prod.fst := by
        intro hmem
        exact h (by simp [hmem])
      rw [ih (aset d k v) htl, alookup_aset_ne d k n v hk]

/-- A key mentioned by a duplicate-free update ends at the updated value:
the entries of the update take precedence over the original dict. -/
theorem alookup_aupdate_of_mem (e : AList) (n : String) (v : Val) :
    ∀ d : AList, (e.map Prod.fst).Nodup → alookup e n = some v →
      alookup (aupdate d e) n = some v := by
  induction e with
  | nil =>
      intro d _ h
      simp [alookup] at h
  | cons hd tl ih =>
      intro d hnd h
      obtain ⟨k, w⟩ := hd
      rw [aupdate_cons]
      by_cases hk : k = n
      · subst hk
        have hv : w = v := by simpa [alookup] using h
        subst hv
        have hnm : k ∉ tl.map Prod.fst := by
          rw [List.map_cons] at hnd
          exact (List.nodup_cons.mp hnd).1
        rw [alookup_aupdate_not_mem tl k (aset d k w) hnm, alookup_aset_self]
      · have h2 : alookup tl n = some v := by simpa [alookup, hk] using h
        have hnd2 : (tl.map Prod.fst).Nodup := by
          rw [List.map_cons] at hnd
          exact (List.nodup_cons.mp hnd).2
        exact ih (aset d k w) hnd2 h2

/-- The keys of the binder output are exactly the declared parameter
names, in order. -/
theorem build_extensive_kwargs_keys (sig : Sig) (args : List Val) (kwargs : AList) :
    (build_extensive_kwargs sig args kwargs).map Prod.fst = sig.map Param.name := by
  simp [build_extensive_kwargs]

/-- A name bound by the caller surfaces in the binder output with the
bound value, for any fixed bound-arguments dict. -/
theorem alookup_ext_of_supplied (bound : AList) (sig : Sig) (n : String) (v : Val)
    (hsup : alookup bound n = some v) (hdecl : n ∈ sig.map Param.name) :
    alookup (sig.map (fun p => (p.name, (alookup bound p.name).getD p.default))) n
      = some v := by
  induction sig with
  | nil => simp at hdecl
  | cons p tl ih =>
      by_cases hp : p.name = n
      · simp [alookup, hp, hsup]
      · have hdecl2 : n ∈ tl.map Param.name := by
          simp only [List.map_cons, List.mem_cons] at hdecl
          rcases hdecl with h | h
          · exact absurd h.symm hp
          · exact h
        simpa [alookup, hp] using ih hdecl2

/-- A declared parameter not bound by the caller surfaces in the binder
output with its declared default, for any fixed bound-arguments dict. -/
theorem alookup_ext_of_unbound (bound : AList) (sig : Sig) (p : Param) :
    (sig.map Param.name).Nodup → p ∈ sig → alookup bound p.name = none →
    alookup (sig.map (fun q => (q.name, (alookup bound q.name).getD q.default))) p.name
      = some p.default := by
  induction sig with
  | nil =>
      intro _ hp _
      simp at hp
  | cons q tl ih =>
      intro hnd hp hun
      rcases List.mem_cons.mp hp with h | h
      · subst h
        simp [alookup, hun]
      · have hq : ¬ q.name = p.name := by
          intro he
          have hmem : p.name ∈ tl.map Param.name := List.mem_map_of_mem Param.name h
          have hq0 : q.name ∉ tl.map Param.name := by
            rw [List.map_cons] at hnd
            exact (List.nodup_cons.mp hnd).1
          exact hq0 (he ▸ hmem)
        have hnd2 : (tl.map Param.name).Nodup := by
          rw [List.map_cons] at hnd
          exact (List.nodup_cons.mp hnd).2
        simpa [alookup, hq] using ih hnd2 h hun

/-- C1: when the wrapped callable raises an exception whose type is in
the configured filter and the message renders, the on-error wrapper
emits exactly one log and then, with reraise set, re-raises the original
exception instance unchanged, and with reraise unset swallows it so that
the wrapped call returns None. -/
theorem onerror_filtered_logs_once_then_policy (cfg : ErrorConfig) (fn : Fn)
    (args : List Val) (kwargs : AList) (e : Exc) (m : String)
    (hb : fn.body args kwargs = CallResult.exc e)
    (hm : excMatches cfg.on_exceptions e = true)
    (hmsg : build_msg cfg.toConfig fn args kwargs
        (aset [] cfg.exception_format_variable (Val.vexc e)) = some m) :
    log_on_error_execute cfg fn args kwargs =
      ([Event.call, Event.log cfg.log_level m false],
        if cfg.reraise then Outcome.raised e else Outcome.ret Val.vnone) := by
  simp only [log_on_error_execute, hb, on_error_result, hm, hmsg, plainLog, if_true]
  by_cases hr : cfg.reraise <;> simp [hr]

/-- Witness for C1 at both reraise settings: the callable raises
ValueError("bad"), the filter contains ValueError. -/
theorem onerror_filtered_logs_once_then_policy_witness :
    log_on_error_execute cfgErrReraise raisingFn [] [] =
      ([Event.call, Event.log cfgErrReraise.log_level "err" false],
        if cfgErrReraise.reraise then Outcome.raised valueErrorExc
        else Outcome.ret Val.vnone) ∧
    log_on_error_execute cfgErrSwallow raisingFn [] [] =
      ([Event.call, Event.log cfgErrSwallow.log_level "err" false],
        if cfgErrSwallow.reraise then Outcome.raised valueErrorExc
        else Outcome.ret Val.vnone) :=
  ⟨onerror_filtered_logs_once_then_policy cfgErrReraise raisingFn [] []
      valueErrorExc "err" rfl (by decide) (by decide),
   onerror_filtered_logs_once_then_policy cfgErrSwallow raisingFn [] []
      valueErrorExc "err" rfl (by decide) (by decide)⟩

/-- C2: when the wrapped callable raises an exception whose type is not
in the filter, the on-error wrapper emits no log and the exception
propagates unchanged; the default (absent) filter and the explicitly
empty filter match no exception at all. -/
theorem onerror_unmatched_propagates_unlogged (cfg : ErrorConfig) (fn : Fn)
    (args : List Val) (kwargs : AList) (e : Exc)
    (hb : fn.body args kwargs = CallResult.exc e)
    (hm : excMatches cfg.on_exceptions e = false) :
    log_on_error_execute cfg fn args kwargs = ([Event.call], Outcome.raised e) ∧
    (∀ e0 : Exc, excMatches (orEmptyFilter none) e0 = false) ∧
    (∀ e0 : Exc, excMatches (orEmptyFilter (some [])) e0 = false) := by
  refine ⟨?_, fun e0 => rfl, fun e0 => rfl⟩
  simp [log_on_error_execute, hb, on_error_result, hm]

/-- Witness for C2: the callable raises TypeError while the filter
contains only ValueError. -/
theorem onerror_unmatched_propagates_unlogged_witness :
    (log_on_error_execute cfgErrReraise addFn [Val.vstr "a"] []
       = ([Event.call], Outcome.raised typeErrorExc)) ∧
    (∀ e0 : Exc, excMatches (orEmptyFilter none) e0 = false) ∧
    (∀ e0 : Exc, excMatches (orEmptyFilter (some [])) e0 = false) :=
  onerror_unmatched_propagates_unlogged cfgErrReraise addFn [Val.vstr "a"] []
    typeErrorExc rfl (by decide)

/-- C3: the on-start wrapper emits its log strictly before the wrapped
callable is invoked, and when message formatting fails, the failure
propagates and the wrapped callable is never invoked. -/
theorem onstart_logs_before_call (cfg : Config) (fn : Fn) (args : List Val)
    (kwargs : AList) :
    (∀ m, build_msg cfg fn args kwargs [] = some m →
        log_on_start_execute cfg fn args kwargs
          = ([Event.log cfg.log_level m false, Event.call],
             match fn.body args kwargs with
             | CallResult.ok v => Outcome.ret v
             | CallResult.exc e => Outcome.raised e)) ∧
    (build_msg cfg fn args kwargs [] = none →
        log_on_start_execute cfg fn args kwargs = ([], Outcome.fmtError)) := by
  constructor
  · intro m hm
    cases hb : fn.body args kwargs with
    | ok v => simp [log_on_start_execute, hm, hb]
    | exc e => simp [log_on_start_execute, hm, hb]
  · intro hm
    simp [log_on_start_execute, hm]

/-- Witness for C3: a rendering template puts the log event before the
call event; a template referencing an absent name yields a formatting
failure with no call event at all. -/
theorem onstart_logs_before_call_witness :
    log_on_start_execute cfgStart addFn [Val.vint 1, Val.vint 2] []
      = ([Event.log cfgStart.log_level "hello" false, Event.call],
         Outcome.ret (Val.vint 3)) ∧
    log_on_start_execute cfgStartBad addFn [Val.vint 1, Val.vint 2] []
      = ([], Outcome.fmtError) :=
  ⟨(onstart_logs_before_call cfgStart addFn [Val.vint 1, Val.vint 2] []).1
      "hello" (by decide),
   (onstart_logs_before_call cfgStartBad addFn [Val.vint 1, Val.vint 2] []).2
      (by decide)⟩

/-- C4: the on-end wrapper logs exactly when the wrapped callable
returns without raising, the combined formatting mapping carries the
actual returned value under the result variable (when that name does not
collide with the callable variable), and a raising callable propagates
its exception unmodified with no log. -/
theorem onend_logs_iff_returns (cfg : EndConfig) (fn : Fn) (args : List Val)
    (kwargs : AList) :
    (∀ e, fn.body args kwargs = CallResult.exc e →
        log_on_end_execute cfg fn args kwargs = ([Event.call], Outcome.raised e)) ∧
    (∀ v m, fn.body args kwargs = CallResult.ok v →
        build_msg cfg.toConfig fn args kwargs
            (aset [] cfg.result_format_variable v) = some m →
        log_on_end_execute cfg fn args kwargs
          = ([Event.call, Event.log cfg.log_level m false], Outcome.ret v)) ∧
    (∀ v, cfg.result_format_variable ≠ cfg.callable_format_variable →
        alookup (msgKwargs cfg.toConfig fn args kwargs
            (aset [] cfg.result_format_variable v)) cfg.result_format_variable
          = some v) := by
  refine ⟨?_, ?_, ?_⟩
  · intro e he
    simp [log_on_end_execute, he]
  · intro v m hv hmsg
    simp [log_on_end_execute, hv, hmsg]
  · intro v hne
    unfold msgKwargs
    apply alookup_aupdate_of_mem
    · simp [aset, hne]
    · simp [aset, alookup, hne]

/-- Witness for C4: the test callable raising on string arguments, the
test callable returning 3 with a rendering template, and the result
variable lookup on the combined mapping. -/
theorem onend_logs_iff_returns_witness :
    log_on_end_execute cfgEnd addFn [Val.vstr "a"] []
      = ([Event.call], Outcome.raised typeErrorExc) ∧
    log_on_end_execute cfgEnd addFn [Val.vint 1, Val.vint 2] []
      = ([Event.call, Event.log cfgEnd.log_level "done" false],
         Outcome.ret (Val.vint 3)) ∧
    alookup (msgKwargs cfgEnd.toConfig addFn [Val.vint 1, Val.vint 2] []
        (aset [] cfgEnd.result_format_variable (Val.vint 3)))
        cfgEnd.result_format_variable = some (Val.vint 3) :=
  ⟨(onend_logs_iff_returns cfgEnd addFn [Val.vstr "a"] []).1 typeErrorExc rfl,
   (onend_logs_iff_returns cfgEnd addFn [Val.vint 1, Val.vint 2] []).2.1
      (Val.vint 3) "done" rfl (by decide),
   (onend_logs_iff_returns cfgEnd addFn [Val.vint 1, Val.vint 2] []).2.2
      (Val.vint 3) (by decide)⟩

/-- C5: for every callable and bindable argument tuple, the binder
output contains exactly the declared parameter names, and any value
supplied by the caller takes precedence over the declared default. -/
theorem binder_complete_and_supplied_precedence (sig : Sig) (args : List Val)
    (kwargs : AList) (n : String) (v : Val)
    (hsup : alookup (bindArgs sig args kwargs) n = some v)
    (hdecl : n ∈ sig.map Param.name) :
    (build_extensive_kwargs sig args kwargs).map Prod.fst = sig.map Param.name ∧
    alookup (build_extensive_kwargs sig args kwargs) n = some v :=
  ⟨build_extensive_kwargs_keys sig args kwargs,
   alookup_ext_of_supplied (bindArgs sig args kwargs) sig n v hsup hdecl⟩

/-- Witness for C5: binding (1, 2) against the four-parameter test
signature; arg1 surfaces with the supplied value, not a default. -/
theorem binder_complete_and_supplied_precedence_witness :
    (build_extensive_kwargs addSig [Val.vint 1, Val.vint 2] []).map Prod.fst
        = addSig.map Param.name ∧
    alookup (build_extensive_kwargs addSig [Val.vint 1, Val.vint 2] []) "arg1"
        = some (Val.vint 1) :=
  binder_complete_and_supplied_precedence addSig [Val.vint 1, Val.vint 2] []
    "arg1" (Val.vint 1) (by decide) (by decide)

/-- C6 counterexample: binding no arguments against the one-parameter
signature x (no default) yields a mapping that still contains the name x,
bound to the empty sentinel — the parameter is not omitted. -/
theorem binder_unsupplied_not_omitted_counterexample :
    build_extensive_kwargs c6sig [] [] = [("x", Val.vempty)] ∧
    alookup (build_extensive_kwargs c6sig [] []) "x" ≠ none := by
  constructor
  · decide
  · decide

/-- C6 amended: a declared parameter that is not supplied by the caller
is included in the binder output with its declared default; in
particular a parameter with no default is included with the
inspect.Parameter.empty sentinel rather than omitted, and binding a
partial argument set is not an error at this layer. -/
theorem binder_unsupplied_param_included_with_default (sig : Sig)
    (args : List Val) (kwargs : AList) (p : Param)
    (hnd : (sig.map Param.name).Nodup) (hp : p ∈ sig)
    (hun : alookup (bindArgs sig args kwargs) p.name = none) :
    alookup (build_extensive_kwargs sig args kwargs) p.name = some p.default :=
  alookup_ext_of_unbound (bindArgs sig args kwargs) sig p hnd hp hun

/-- Witness for the amended C6 at the one-parameter signature. -/
theorem binder_unsupplied_param_included_with_default_witness :
    alookup (build_extensive_kwargs c6sig [] []) "x" = some Val.vempty :=
  binder_unsupplied_param_included_with_default c6sig [] [] ⟨"x", Val.vempty⟩
    (by decide) (by decide) (by decide)

/-- C7: the extra named values (with the callable written in last) are
merged into the bound-arguments mapping by build_msg, and every name
present in the extras dict takes precedence over the bound-argument
value of the same name in the combined formatting mapping. -/
theorem extras_take_precedence (cfg : Config) (fn : Fn) (args : List Val)
    (kwargs : AList) (extra : AList) (n : String) (v : Val)
    (hnd : ((aset extra cfg.callable_format_variable (Val.vfn fn.name)).map
        Prod.fst).Nodup)
    (h : alookup (aset extra cfg.callable_format_variable (Val.vfn fn.name)) n
        = some v) :
    alookup (msgKwargs cfg fn args kwargs extra) n = some v :=
  alookup_aupdate_of_mem
    (aset extra cfg.callable_format_variable (Val.vfn fn.name)) n v
    (build_extensive_kwargs fn.sig args kwargs) hnd h

/-- Witness for C7: the extra entry arg1 overrides the bound argument
arg1 = 1 in the combined mapping. -/
theorem extras_take_precedence_witness :
    alookup (msgKwargs cfgStart addFn [Val.vint 1, Val.vint 2] []
        [("arg1", Val.vstr "override")]) "arg1" = some (Val.vstr "override") :=
  extras_take_precedence cfgStart addFn [Val.vint 1, Val.vint 2] []
    [("arg1", Val.vstr "override")] "arg1" (Val.vstr "override")
    (by decide) (by decide)

/-- Every event of an error-path execution that uses the log_exception
log override is either the callable invocation or an ERROR-level
emission through the stack-trace path. -/
theorem on_error_result_exception_log_events (cfg : ErrorConfig) (fn : Fn)
    (args : List Val) (kwargs : AList) (e : Exc) (x : Event)
    (hx : x ∈ (on_error_result log_exception_log cfg fn args kwargs e).1) :
    x = Event.call ∨ ∃ m, x = Event.log logging_ERROR m true := by
  by_cases hm : excMatches cfg.on_exceptions e
  · cases hbm : build_msg cfg.toConfig fn args kwargs
        (aset [] cfg.exception_format_variable (Val.vexc e)) with
    | none =>
        simp [on_error_result, hm, hbm] at hx
        exact Or.inl hx
    | some m =>
        by_cases hr : cfg.reraise
        · simp [on_error_result, hm, hbm, hr, log_exception_log] at hx
          rcases hx with hx | hx
          · exact Or.inl hx
          · exact Or.inr ⟨m, hx⟩
        · simp [on_error_result, hm, hbm, hr, log_exception_log] at hx
          rcases hx with hx | hx
          · exact Or.inl hx
          · exact Or.inr ⟨m, hx⟩
  · simp [on_error_result, hm] at hx
    exact Or.inl hx

/-- C8 amended: log_exception always logs through the logging facility
exception path at level ERROR: the constructor forces the configured
level to logging.ERROR (it accepts no level argument at all), the
overridden log method emits through logger.exception at ERROR whatever
level it is handed internally, and every log event of a decorated call
is an ERROR-level stack-trace emission.  No configuration warning about
a level exists in the code. -/
theorem log_exception_always_error_exception_path (message : List FmtPart)
    (cv : String) (oe : Option (List String)) (rr : Bool) (ev : String)
    (fn : Fn) (args : List Val) (kwargs : AList) :
    (log_exception_mk message cv oe rr ev).log_level = logging_ERROR ∧
    (∀ lvl m, log_exception_log lvl m = Event.log logging_ERROR m true) ∧
    (∀ x ∈ (log_exception_execute (log_exception_mk message cv oe rr ev)
        fn args kwargs).1,
      x = Event.call ∨ ∃ m, x = Event.log logging_ERROR m true) := by
  refine ⟨rfl, fun lvl m => rfl, ?_⟩
  intro x hx
  cases hfb : fn.body args kwargs with
  | ok v =>
      simp [log_exception_execute, hfb] at hx
      exact Or.inl hx
  | exc e =>
      simp only [log_exception_execute, hfb] at hx
      exact on_error_result_exception_log_events _ fn args kwargs e x hx

/-- Witness for the amended C8: the concrete construction has level
ERROR, the log method handed INFO still emits at ERROR with a stack
trace, and the one log event of a decorated call over a raising callable
is an ERROR-level stack-trace emission. -/
theorem log_exception_always_error_exception_path_witness :
    (log_exception_mk [FmtPart.lit "x"] "callable" (some ["ValueError"]) true
        "e").log_level = logging_ERROR ∧
    log_exception_log 20 "hello" = Event.log logging_ERROR "hello" true ∧
    (Event.log logging_ERROR "x" true = Event.call ∨
      ∃ m, Event.log logging_ERROR "x" true = Event.log logging_ERROR m true) :=
  ⟨(log_exception_always_error_exception_path [FmtPart.lit "x"] "callable"
      (some ["ValueError"]) true "e" raisingFn [] []).1,
   (log_exception_always_error_exception_path [FmtPart.lit "x"] "callable"
      (some ["ValueError"]) true "e" raisingFn [] []).2.1 20 "hello",
   (log_exception_always_error_exception_path [FmtPart.lit "x"] "callable"
      (some ["ValueError"]) true "e" raisingFn [] []).2.2
      (Event.log logging_ERROR "x" true) (by decide)⟩

/-- C8 counterexample: no configuration warning about the level exists in
the code — the log path handed the INFO level (20) still emits at ERROR
through the exception path without any warning, and the constructor
warning output is empty in every single-sink configuration (the only
warning in the library concerns mixed logger/handler use, independent of
any level). -/
theorem log_exception_no_level_warning_counterexample :
    log_exception_log 20 "m" = Event.log 40 "m" true ∧
    initWarnings false false = [] ∧
    initWarnings true false = [] ∧
    initWarnings false true = [] := by
  refine ⟨rfl, rfl, rfl, rfl⟩

/-- C9 amended: async_log_on_start and async_log_on_end behave exactly
as their synchronous counterparts, and async_log_on_error and
async_log_exception agree with theirs on every normal return and on
every raised exception deriving from Exception; the divergence is that
an exception deriving only from BaseException is caught by the
synchronous wrappers (except BaseException) but not by the asynchronous
ones (except Exception). -/
theorem async_variants_agree_with_sync (cfg : Config) (ecfg : EndConfig)
    (rcfg : ErrorConfig) (fn : Fn) (args : List Val) (kwargs : AList) :
    async_log_on_start_execute cfg fn args kwargs
      = log_on_start_execute cfg fn args kwargs ∧
    async_log_on_end_execute ecfg fn args kwargs
      = log_on_end_execute ecfg fn args kwargs ∧
    (∀ v, fn.body args kwargs = CallResult.ok v →
        async_log_on_error_execute rcfg fn args kwargs
          = log_on_error_execute rcfg fn args kwargs ∧
        async_log_exception_execute rcfg fn args kwargs
          = log_exception_execute rcfg fn args kwargs) ∧
    (∀ e, fn.body args kwargs = CallResult.exc e → e.isException = true →
        async_log_on_error_execute rcfg fn args kwargs
          = log_on_error_execute rcfg fn args kwargs ∧
        async_log_exception_execute rcfg fn args kwargs
          = log_exception_execute rcfg fn args kwargs) := by
  refine ⟨rfl, rfl, ?_, ?_⟩
  · intro v hv
    constructor
    · simp [async_log_on_error_execute, log_on_error_execute, hv]
    · simp [async_log_exception_execute, log_exception_execute, hv]
  · intro e he hex
    constructor
    · simp [async_log_on_error_execute, log_on_error_execute, he, hex]
    · simp [async_log_exception_execute, log_exception_execute, he, hex]

/-- Witness for the amended C9: over a callable raising
ValueError (an Exception), the asynchronous error wrappers agree with
the synchronous ones. -/
theorem async_variants_agree_with_sync_witness :
    async_log_on_error_execute cfgErrReraise raisingFn [] []
      = log_on_error_execute cfgErrReraise raisingFn [] [] ∧
    async_log_exception_execute cfgErrReraise raisingFn [] []
      = log_exception_execute cfgErrReraise raisingFn [] [] :=
  (async_variants_agree_with_sync cfgStart cfgEnd cfgErrReraise raisingFn
    [] []).2.2.2 valueErrorExc rfl rfl

/-- C9 counterexample: the callable raises KeyboardInterrupt (a
BaseException that is not an Exception) with KeyboardInterrupt in the
filter and reraise unset: the synchronous wrapper logs and swallows it,
the asynchronous wrapper propagates it unlogged — the variants are not
semantically identical. -/
theorem async_onerror_differs_from_sync_counterexample :
    async_log_on_error_execute cfgKb kbFn [] []
      ≠ log_on_error_execute cfgKb kbFn [] [] := by decide

/-- C10: when the result (or exception) format variable is configured
equal to the callable format variable, the callable entry — written into
the extras dict after the result/exception entry — overwrites it, so the
combined mapping and the rendered message show the callable for that
placeholder, not the result or exception. -/
theorem collision_callable_wins (ecfg : EndConfig) (rcfg : ErrorConfig)
    (fn : Fn) (args : List Val) (kwargs : AList) (v : Val) (e : Exc)
    (h1 : ecfg.result_format_variable = ecfg.callable_format_variable)
    (h2 : rcfg.exception_format_variable = rcfg.callable_format_variable) :
    alookup (msgKwargs ecfg.toConfig fn args kwargs
        (aset [] ecfg.result_format_variable v)) ecfg.callable_format_variable
      = some (Val.vfn fn.name) ∧
    alookup (msgKwargs rcfg.toConfig fn args kwargs
        (aset [] rcfg.exception_format_variable (Val.vexc e)))
        rcfg.callable_format_variable = some (Val.vfn fn.name) ∧
    (ecfg.message = [FmtPart.field ecfg.callable_format_variable none none] →
        build_msg ecfg.toConfig fn args kwargs
            (aset [] ecfg.result_format_variable v)
          = some (pyStr (Val.vfn fn.name))) := by
  have key : ∀ (w : Val),
      alookup (msgKwargs ecfg.toConfig fn args kwargs
        (aset [] ecfg.result_format_variable w)) ecfg.callable_format_variable
      = some (Val.vfn fn.name) := by
    intro w
    rw [h1]
    unfold msgKwargs
    have hset : aset (aset [] ecfg.callable_format_variable w)
        ecfg.callable_format_variable (Val.vfn fn.name)
        = [(ecfg.callable_format_variable, Val.vfn fn.name)] := by
      simp [aset]
    rw [hset, aupdate_singleton]
    exact alookup_aset_self _ _ _
  refine ⟨key v, ?_, ?_⟩
  · rw [h2]
    unfold msgKwargs
    have hset : aset (aset [] rcfg.callable_format_variable (Val.vexc e))
        rcfg.callable_format_variable (Val.vfn fn.name)
        = [(rcfg.callable_format_variable, Val.vfn fn.name)] := by
      simp [aset]
    rw [hset, aupdate_singleton]
    exact alookup_aset_self _ _ _
  · intro hm
    unfold build_msg
    rw [hm]
    simp [formatParts, key v, formatField, applySpec, String.append_empty]

/-- Witness for C10 at the colliding concrete configurations. -/
theorem collision_callable_wins_witness :
    alookup (msgKwargs cfgEndCollide.toConfig addFn [Val.vint 1, Val.vint 2] []
        (aset [] cfgEndCollide.result_format_variable (Val.vint 3)))
        cfgEndCollide.callable_format_variable = some (Val.vfn addFn.name) ∧
    alookup (msgKwargs cfgErrCollide.toConfig addFn [Val.vint 1, Val.vint 2] []
        (aset [] cfgErrCollide.exception_format_variable (Val.vexc valueErrorExc)))
        cfgErrCollide.callable_format_variable = some (Val.vfn addFn.name) ∧
    (cfgEndCollide.message
        = [FmtPart.field cfgEndCollide.callable_format_variable none none] →
      build_msg cfgEndCollide.toConfig addFn [Val.vint 1, Val.vint 2] []
          (aset [] cfgEndCollide.result_format_variable (Val.vint 3))
        = some (pyStr (Val.vfn addFn.name))) :=
  collision_callable_wins cfgEndCollide cfgErrCollide addFn
    [Val.vint 1, Val.vint 2] [] (Val.vint 3) valueErrorExc rfl rfl

end LogDec
